import Mathlib

/-!
Verification of the message-delivery pipeline of the ktb-BootcampChat
repository.  The definitions below are a shallow embedding of the two core
source files:

* `src/unnamed/part_003` (`backend/utils/queue.js`) — the `MessageQueue`
  class over three Redis lists (incoming, in-flight, dead-letter lanes);
* `src/unnamed/part_004` (the socket module) — the realtime dispatch layer:
  connection handling with the duplicate-login protocol, room membership,
  message submission, history backfill, and AI streaming.

Redis lists are modelled as Lean lists in head-to-tail order: `rpush`
appends at the tail, `rpoplpush src dst` removes the last element of `src`
and conses it onto `dst`, `lrem q 1 v` removes the first occurrence of `v`
scanning from the head.  Timestamps are `Nat` milliseconds.  Every
definition is translated from the source; the sole exceptions are marked
`Modelled from the spec:` (the external AI responder, which is not under
`src/`) or are explicitly a restatement of the spec's words for a
refinement comparison.
-/

namespace BootcampChat

/-! ## Data model -/

/-- Message type discriminator (`text`, `file`, `system`, `ai`). -/
inductive MType where
  | text | file | system | ai
deriving DecidableEq, Repr

abbrev UserId := String
abbrev RoomId := String
abbrev SocketId := String

/-- The queued message payload built by the `chatMessage` handler
(part_004, lines 442-454).  `fileData` and the `metadata` block are
carried opaquely by the queue and are irrelevant to every claim, so they
are omitted from the embedding. -/
structure MsgPayload where
  room : RoomId
  sender : UserId
  mtype : MType
  content : String
  tempId : String
deriving DecidableEq, Repr

/-- A queue entry as serialized into the Redis lists: the payload fields
plus `attemptCount` and `queuedAt` (queue.js, lines 22-26). -/
structure QMsg where
  payload : MsgPayload
  attemptCount : Nat
  queuedAt : Nat
deriving DecidableEq, Repr

/-- A dead-letter entry: the failed entry plus the failure reason and a
failure timestamp (queue.js, lines 107-111). -/
structure DeadMsg where
  entry : QMsg
  error : String
  failedAt : Nat
deriving DecidableEq, Repr

/-- The durable record produced by `Message.create` (queue.js lines 40-47,
and the system/AI messages created in part_004).  `sender` is `none` for
system messages, which are created without one. -/
structure StoredMsg where
  id : Nat
  room : RoomId
  sender : Option UserId
  mtype : MType
  content : String
  ts : Nat
deriving DecidableEq, Repr

/-- The three Redis lanes owned by `MessageQueue`: `chat_messages`
(incoming), `processing_messages` (in-flight), `dead_letter_messages`. -/
structure QueueState where
  main : List QMsg
  processing : List QMsg
  dead : List DeadMsg
deriving DecidableEq, Repr

/-- `this.maxRetries = 3` (queue.js, line 16). -/
def maxRetries : Nat := 3

/-! ## Queue Engine (queue.js) -/

/-- `enqueue(messageData)` (queue.js, lines 20-34).  The entry pushed is
`spread of messageData, then attemptCount set to 0, then queuedAt set to now`:
object-spread semantics mean the explicit `attemptCount: 0` and
`queuedAt: Date.now()` fields overwrite whatever `messageData` carried.
Returns `false` instead of throwing when the store is unreachable
(the `catch` branch). -/
def enqueue (reachable : Bool) (now : Nat) (s : QueueState) (m : QMsg) :
    QueueState × Bool :=
  if reachable then
    ({ s with main := s.main ++ [{ m with attemptCount := 0, queuedAt := now }] },
     true)
  else
    (s, false)

/-- `moveToDeadLetter(message, error)` (queue.js, lines 105-117): rpush the
entry, extended with the error string and `failedAt`, onto the dead-letter
lane. -/
def moveToDeadLetter (now : Nat) (err : String) (s : QueueState) (m : QMsg) :
    QueueState :=
  { s with dead := s.dead ++ [⟨m, err, now⟩] }

/-- Events emitted by the queue engine: `messageProcessed` with the created
record and the original queue entry, and `messageError` with the failure
reason and the original entry (queue.js, lines 55-58 and 63). -/
inductive QEvent where
  | processed (record : StoredMsg) (original : QMsg)
  | failed (error : String) (original : QMsg)
deriving DecidableEq, Repr

/-- The record `Message.create` builds from a queue entry on a successful
processing attempt (queue.js, lines 40-47). -/
def mkRecord (m : QMsg) (id : Nat) (now : Nat) : StoredMsg :=
  { id := id
    room := m.payload.room
    sender := some m.payload.sender
    mtype := m.payload.mtype
    content := m.payload.content
    ts := now }

/-- One iteration of `startProcessing` (queue.js, lines 68-103) in which an
entry is available.  `rpoplpush(mainQueue, processingQueue)` pops the tail
of the incoming lane and conses it onto the in-flight lane.  `persistOk`
is whether `processMessage` (the `Message.create` call) succeeds.  On
success the entry is `lrem`-removed from the in-flight lane and a
`processed` event fires.  On failure `attemptCount` is incremented on the
in-memory object; if it reaches `maxRetries` the entry moves to
dead-letter, otherwise it is passed back to `enqueue` — which, per
`enqueue`'s definition, overwrites `attemptCount` back to `0`.  Either
way the original serialized entry is removed from the in-flight lane. -/
def stepProcess (persistOk : Bool) (id now : Nat) (err : String)
    (s : QueueState) : QueueState × List QEvent :=
  match s.main.getLast? with
  | none => (s, [])
  | some m =>
    let s1 : QueueState :=
      { s with main := s.main.dropLast, processing := m :: s.processing }
    if persistOk then
      ({ s1 with processing := s1.processing.erase m },
       [QEvent.processed (mkRecord m id now) m])
    else
      let m' : QMsg := { m with attemptCount := m.attemptCount + 1 }
      if maxRetries ≤ m'.attemptCount then
        let s2 := moveToDeadLetter now err s1 m'
        ({ s2 with processing := s2.processing.erase m },
         [QEvent.failed err m])
      else
        let s2 := (enqueue true now s1 m').1
        ({ s2 with processing := s2.processing.erase m },
         [QEvent.failed err m])

/-- `cleanup()` (queue.js, lines 119-133): read the whole in-flight lane;
if non-empty, delete it and rpush all its entries onto the incoming
lane. -/
def cleanup (s : QueueState) : QueueState :=
  if 0 < s.processing.length then
    { s with processing := [], main := s.main ++ s.processing }
  else
    s

/-- The queue state observed by the processing loop when it starts.  At
module initialization (part_004, lines 882-896) the socket layer launches
`messageQueue.startProcessing()` directly; no call to `cleanup()` precedes
it — `cleanup()` is registered only as a SIGTERM/SIGINT handler.  Hence
the loop starts on the store state exactly as it was left. -/
def queueStateAtLoopStart (s : QueueState) : QueueState := s

/-- The SIGTERM/SIGINT handlers (part_004, lines 888-896) run `cleanup()`
and exit. -/
def onShutdownSignal (s : QueueState) : QueueState := cleanup s

/-- Iterated failing processing attempts starting from a state. -/
def runFailing (id now : Nat) (err : String) (s : QueueState) : Nat → QueueState
  | 0 => s
  | n + 1 => runFailing id now err (stepProcess false id now err s).1 n

/-- A sample payload and its freshly-enqueued entry, used in the concrete
evaluations below. -/
def samplePayload : MsgPayload :=
  { room := "r1", sender := "u1", mtype := MType.text
    content := "hi", tempId := "t1" }

def sampleEntry : QMsg := { payload := samplePayload, attemptCount := 0, queuedAt := 0 }

/-! ## Association-list maps

JS `Map` objects (`connectedUsers`, `userRooms`, `messageLoadRetries`) are
modelled as association lists; `set` replaces any previous binding. -/

def amGet {β : Type} (m : List (String × β)) (k : String) : Option β :=
  (m.find? (fun p => decide (p.1 = k))).map (·.2)

def amSet {β : Type} (m : List (String × β)) (k : String) (v : β) :
    List (String × β) :=
  (m.filter (fun p => decide (p.1 ≠ k))) ++ [(k, v)]

def amDel {β : Type} (m : List (String × β)) (k : String) :
    List (String × β) :=
  m.filter (fun p => decide (p.1 ≠ k))

/-! ## Socket layer state (part_004) -/

/-- Constants of the socket module (part_004, lines 18-23). -/
def BATCH_SIZE : Nat := 30
def LOAD_DELAY : Nat := 300
def MAX_RETRIES : Nat := 3
def DUPLICATE_LOGIN_TIMEOUT : Nat := 10000

/-- A live socket.io connection: its id and the authenticated user set by
the middleware (part_004, lines 203-209). -/
structure Sock where
  id : SocketId
  user : UserId
  userName : String
deriving DecidableEq, Repr

/-- A chat room document: its id and participant list. -/
structure RoomRec where
  id : RoomId
  participants : List UserId
deriving DecidableEq, Repr

/-- An in-flight AI streaming session (part_004, lines 761-769).  The
source stores no `userId` field in these objects, so the
`session.userId === socket.user.id` cleanup comparisons in the leaveRoom
and disconnect handlers never match. -/
structure StreamSession where
  messageId : String
  room : RoomId
  aiType : String
  content : String
  ts : Nat
deriving DecidableEq, Repr

/-- The mutable module-level state of the socket layer (part_004, lines
13-17): `connectedUsers`, `userRooms`, the `messageQueues` load-guard set
(a key is present when its value is the `true` the handler stores),
`messageLoadRetries`, the set of live sockets, plus the external
collaborator state the handlers read and write: room documents and the
message store.  `processedListeners` counts how many times the
`messageQueue.on('messageProcessed', ...)` registration at line 474 has
run — once per accepted connection, since it sits inside
`io.on('connection', ...)`. -/
structure ChatState where
  connectedUsers : List (UserId × SocketId)
  userRooms : List (UserId × RoomId)
  messageQueues : List String
  messageLoadRetries : List (String × Nat)
  liveSockets : List Sock
  rooms : List RoomRec
  db : List StoredMsg
  streamingSessions : List StreamSession
  processedListeners : Nat
  nextId : Nat
deriving DecidableEq, Repr

def emptyChat : ChatState :=
  { connectedUsers := [], userRooms := [], messageQueues := []
    messageLoadRetries := [], liveSockets := [], rooms := [], db := []
    streamingSessions := [], processedListeners := 0, nextId := 0 }

/-- Whether a socket with this id is currently connected
(`io.sockets.sockets.get(sid)` returns a socket). -/
def sockAlive (st : ChatState) (sid : SocketId) : Bool :=
  st.liveSockets.any (fun s => decide (s.id = sid))

def findSock (st : ChatState) (sid : SocketId) : Option Sock :=
  st.liveSockets.find? (fun s => decide (s.id = sid))

/-- Whether `Room.findOne(_id: roomId, participants: uid)` finds a room. -/
def roomHasParticipant (st : ChatState) (roomId : RoomId) (uid : UserId) : Bool :=
  st.rooms.any (fun r => decide (r.id = roomId) && r.participants.contains uid)

/-- Server-to-client events of the realtime surface that the claims
mention.  Payload fields irrelevant to every claim (e.g. the
human-readable message strings) are reduced to what the claims test. -/
inductive SEvent where
  | duplicateLogin (deviceInfo ipAddress : String) (timestamp : Nat)
  | sessionEnded (reason : String)
  | messageQueued (tempId : String) (queuedAt : Nat)
  | messageProcessedNotice (tempId : String) (record : StoredMsg)
  | roomMessage (record : StoredMsg)
  | participantsUpdate (ps : List UserId)
  | userLeft (userId : UserId)
  | joinRoomSuccessRoomOnly (roomId : RoomId)
  | joinRoomSuccessFull (roomId : RoomId) (participants : List UserId)
      (messages : List StoredMsg) (hasMore : Bool)
      (oldestTimestamp : Option Nat) (activeStreams : List StreamSession)
  | joinRoomError (msg : String)
  | messageLoadStart
  | previousMessagesLoaded (messages : List StoredMsg) (hasMore : Bool)
      (oldestTimestamp : Option Nat)
  | errorEvent (code msg : String)
  | messagesRead (userId : UserId) (ids : List Nat)
deriving DecidableEq, Repr

/-- An emission: to one socket (`socket.emit`), to every socket joined to
a room (`io.to(room).emit`), or to a room excluding one socket
(`socket.to(room).emit`). -/
inductive Emit where
  | toSocket (sid : SocketId) (e : SEvent)
  | toRoom (room : RoomId) (e : SEvent)
  | toRoomExcept (sid : SocketId) (room : RoomId) (e : SEvent)
deriving DecidableEq, Repr

/-- A pending `setTimeout` from the duplicate-login branch of the
connection handler (part_004, lines 248-254): at `fireAt` the superseded
socket receives `session_ended` and is force-disconnected. -/
structure DupTimer where
  oldSid : SocketId
  fireAt : Nat
deriving DecidableEq, Repr

/-- The tail of the `disconnect` handler (part_004, lines 591-614): unless
the reason is a client-initiated disconnect or `duplicate_login`, a system
leave message is created, the user is pulled from the room's participants,
and the message and updated participant list are broadcast to the room. -/
def disconnectLeaveBroadcast (st3 : ChatState) (sock : Sock) (reason : String)
    (now : Nat) (roomOpt : Option RoomId) : ChatState × List (Nat × Emit) :=
  match roomOpt with
  | none => (st3, [])
  | some roomId =>
    if reason ≠ "client namespace disconnect" ∧ reason ≠ "duplicate_login" then
      let leaveMsg : StoredMsg :=
        { id := st3.nextId, room := roomId, sender := none
          mtype := MType.system
          content := sock.userName ++ "님이 연결이 끊어졌습니다."
          ts := now }
      let rooms' := st3.rooms.map (fun r =>
        if r.id = roomId then
          { r with participants := r.participants.filter (fun u => decide (u ≠ sock.user)) }
        else r)
      match rooms'.find? (fun r => decide (r.id = roomId)) with
      | some r =>
        ({ st3 with db := st3.db ++ [leaveMsg], rooms := rooms'
                    nextId := st3.nextId + 1 },
         [(now, Emit.toRoom roomId (SEvent.roomMessage leaveMsg)),
          (now, Emit.toRoom roomId (SEvent.participantsUpdate r.participants))])
      | none => (st3, [])
    else
      (st3, [])

/-- The `disconnect` handler (part_004, lines 567-626) as run when socket
`sid` disconnects with the given reason string: the socket leaves the live
set; `connectedUsers` drops the user's entry only when it still references
this very socket; the user's room entry and load guards are cleared; and
the conditional leave broadcast of `disconnectLeaveBroadcast` follows.
(The streaming-session sweep compares a non-existent `session.userId`
field and so removes nothing.) -/
def disconnectSock (st : ChatState) (sid : SocketId) (reason : String)
    (now : Nat) : ChatState × List (Nat × Emit) :=
  match findSock st sid with
  | none => (st, [])
  | some sock =>
    let st1 : ChatState :=
      { st with liveSockets := st.liveSockets.filter (fun s => decide (s.id ≠ sid)) }
    let st2 : ChatState :=
      if amGet st1.connectedUsers sock.user = some sid then
        { st1 with connectedUsers := amDel st1.connectedUsers sock.user }
      else st1
    let roomOpt := amGet st2.userRooms sock.user
    let st3 : ChatState :=
      { st2 with
        userRooms := amDel st2.userRooms sock.user
        messageQueues :=
          st2.messageQueues.filter
            (fun k => decide (¬ (k = (roomOpt.getD "") ++ ":" ++ sock.user)))
        messageLoadRetries :=
          st2.messageLoadRetries.filter
            (fun p => decide (¬ (p.1 = (roomOpt.getD "") ++ ":" ++ sock.user))) }
    disconnectLeaveBroadcast st3 sock reason now roomOpt

/-- The duplicate-login test of the connection handler (part_004, lines
237-240): the previously recorded socket id for this user, provided it
differs from the new socket's id and is still connected. -/
def dupTarget (st : ChatState) (sock : Sock) : Option SocketId :=
  match amGet st.connectedUsers sock.user with
  | some prevSid =>
    if prevSid ≠ sock.id ∧ sockAlive st prevSid then some prevSid else none
  | none => none

/-- The new socket joins the set of connected sockets when the
`connection` event fires. -/
def addLiveSock (st : ChatState) (sock : Sock) : ChatState :=
  if sockAlive st sock.id then st
  else { st with liveSockets := st.liveSockets ++ [sock] }

/-- The connection handler's entry block (part_004, lines 229-259) plus
the per-connection `messageQueue.on` registrations (lines 474 and 691):
the new socket becomes live; if `connectedUsers` holds a different socket
id for this user and that socket is still connected, it is sent a
`duplicate_login` notice now and a `session_ended`-and-disconnect is
scheduled for `DUPLICATE_LOGIN_TIMEOUT` ms later; finally
`connectedUsers[user]` is set to the new socket id — immediately, not
inside the timeout callback. -/
def handleConnection (st : ChatState) (sock : Sock) (now : Nat)
    (deviceInfo ipAddr : String) :
    ChatState × List (Nat × Emit) × List DupTimer :=
  let stLive : ChatState := addLiveSock st sock
  let emits :=
    match dupTarget stLive sock with
    | some prevSid =>
      [(now, Emit.toSocket prevSid (SEvent.duplicateLogin deviceInfo ipAddr now))]
    | none => []
  let timers :=
    match dupTarget stLive sock with
    | some prevSid =>
      [({ oldSid := prevSid, fireAt := now + DUPLICATE_LOGIN_TIMEOUT } : DupTimer)]
    | none => []
  ({ stLive with
      connectedUsers := amSet stLive.connectedUsers sock.user sock.id
      processedListeners := stLive.processedListeners + 1 },
   emits, timers)

/-- Firing the scheduled duplicate-login timeout (part_004, lines
248-254): emit `session_ended` to the superseded socket (delivered only if
it is still connected) and force-disconnect it.  The forced server-side
disconnect reaches the disconnect handler with a server-initiated reason
string. -/
def fireDupTimer (st : ChatState) (tm : DupTimer) :
    ChatState × List (Nat × Emit) :=
  let e1 :=
    if sockAlive st tm.oldSid then
      [(tm.fireAt, Emit.toSocket tm.oldSid (SEvent.sessionEnded "duplicate_login"))]
    else []
  let d := disconnectSock st tm.oldSid "server namespace disconnect" tm.fireAt
  (d.1, e1 ++ d.2)

/-- `handleDuplicateLogin` as invoked — and awaited — by the auth
middleware (part_004, lines 139-168 and 184-190): when the user already
has a live connection, that connection receives `duplicate_login` at once
and, `DUPLICATE_LOGIN_TIMEOUT` ms later, `session_ended` followed by a
forced disconnect; only then does the middleware proceed.  Returns the
state, the delivered notices, and the time at which the middleware
continues. -/
def authMiddlewareDupCheck (st : ChatState) (sock : Sock) (t0 : Nat)
    (deviceInfo ipAddr : String) :
    ChatState × List (Nat × Emit) × Nat :=
  match amGet st.connectedUsers sock.user with
  | some oldSid =>
    if sockAlive st oldSid then
      let tEnd := t0 + DUPLICATE_LOGIN_TIMEOUT
      let e1 := (t0, Emit.toSocket oldSid
        (SEvent.duplicateLogin deviceInfo ipAddr t0))
      let e2 :=
        if sockAlive st oldSid then
          [(tEnd, Emit.toSocket oldSid (SEvent.sessionEnded "duplicate_login"))]
        else []
      let d := disconnectSock st oldSid "server namespace disconnect" tEnd
      (d.1, [e1] ++ e2 ++ d.2, tEnd)
    else (st, [], t0)
  | none => (st, [], t0)

/-- A new authenticated connection end to end: the middleware's
duplicate-login check (which suspends this connection's acceptance for the
grace window when it fires), then — provided session validation and user
lookup succeed, `authOk` — the connection handler. -/
def processNewConnection (st : ChatState) (sock : Sock) (t0 : Nat)
    (deviceInfo ipAddr : String) (authOk : Bool) :
    ChatState × List (Nat × Emit) × List DupTimer :=
  let a := authMiddlewareDupCheck st sock t0 deviceInfo ipAddr
  if authOk then
    let c := handleConnection a.1 sock a.2.2 deviceInfo ipAddr
    (c.1, a.2.1 ++ c.2.1, c.2.2)
  else
    (a.1, a.2.1, [])

/-! ## History Loader (part_004, lines 32-103) -/

/-- Descending-timestamp order used by `.sort(timestamp: -1)`. -/
def tsDesc (a b : StoredMsg) : Prop := b.ts ≤ a.ts

/-- Ascending-timestamp order used by the in-memory
`sort((a, b) => dateA - dateB)`. -/
def tsAsc (a b : StoredMsg) : Prop := a.ts ≤ b.ts

instance : DecidableRel tsDesc :=
  fun a b => inferInstanceAs (Decidable (b.ts ≤ a.ts))

instance : DecidableRel tsAsc :=
  fun a b => inferInstanceAs (Decidable (a.ts ≤ b.ts))

instance : IsTotal StoredMsg tsDesc := ⟨fun a b => Nat.le_total b.ts a.ts⟩

instance : IsTotal StoredMsg tsAsc := ⟨fun a b => Nat.le_total a.ts b.ts⟩

instance : IsTrans StoredMsg tsDesc :=
  ⟨fun _ _ _ hab hbc => Nat.le_trans hbc hab⟩

instance : IsTrans StoredMsg tsAsc :=
  ⟨fun _ _ _ hab hbc => Nat.le_trans hab hbc⟩

/-- The Mongo query built at lines 40-43: messages of the room, restricted
to `timestamp < before` when `before` is given. -/
def queryMsgs (db : List StoredMsg) (roomId : RoomId) (before : Option Nat) :
    List StoredMsg :=
  db.filter (fun m =>
    decide (m.room = roomId) &&
      (match before with
       | some b => decide (m.ts < b)
       | none => true))

structure LoadResult where
  messages : List StoredMsg
  hasMore : Bool
  oldestTimestamp : Option Nat
deriving DecidableEq, Repr

/-- `loadMessages` (part_004, lines 32-103): fetch the matching records
sorted newest-first, capped at `limit + 1`; `hasMore` iff more than
`limit` came back; keep the first `limit` of the newest-first list; re-sort
them ascending; report the first (oldest) returned timestamp.  The
fire-and-forget read-marking update (lines 64-82) mutates only the
`readers` sets, which no claim observes, and its failure does not affect
the returned value; it is omitted here.  (`sortedMessages[0]?.timestamp ||
null` is `null` exactly when no record was returned, since `Date` values
are always truthy.) -/
def loadMessagesModel (db : List StoredMsg) (roomId : RoomId)
    (before : Option Nat) (limit : Nat) : LoadResult :=
  let fetched := (List.insertionSort tsDesc (queryMsgs db roomId before)).take (limit + 1)
  let resultMessages := fetched.take limit
  let sortedMessages := List.insertionSort tsAsc resultMessages
  { messages := sortedMessages
    hasMore := decide (limit < fetched.length)
    oldestTimestamp := sortedMessages.head?.map (·.ts) }

/-- The returned page as the claim's sentence describes it — "the oldest
`limit` of the fetched records in ascending time order" — stated from the
spec's words for comparison against `loadMessagesModel`. -/
def claimOldestOfFetched (db : List StoredMsg) (roomId : RoomId)
    (before : Option Nat) (limit : Nat) : List StoredMsg :=
  let fetched := (List.insertionSort tsDesc (queryMsgs db roomId before)).take (limit + 1)
  (List.insertionSort tsAsc fetched).take limit

/-! ## fetchPreviousMessages handler (part_004, lines 261-311) -/

/-- Release of one load guard: the `setTimeout(() =>
messageQueues.delete(queueKey), LOAD_DELAY)` body. -/
def fireGuardRelease (st : ChatState) (key : String) : ChatState :=
  { st with messageQueues := st.messageQueues.filter (fun k => decide (k ≠ key)) }

/-- Fire every scheduled guard release whose time has come. -/
def fireDueReleases (st : ChatState) (timers : List (String × Nat)) (now : Nat) :
    ChatState × List (String × Nat) :=
  (timers.foldl (fun acc t => if t.2 ≤ now then fireGuardRelease acc t.1 else acc) st,
   timers.filter (fun t => decide (¬ (t.2 ≤ now))))

/-- The `fetchPreviousMessages` handler.  Request arrives at `now`; the
underlying `loadMessagesWithRetry` call resolves at `fin` with success
(`fetchOk = true`, returning `loadMessagesModel` on the current store) or
with a final error whose message is `errMsg` (timeout or retry
exhaustion), the retry/backoff internals being collapsed into that
outcome.  Source-faithful control flow: the membership check precedes the
guard check, so a non-member gets an error event; a request finding the
guard set returns silently, emitting nothing; otherwise the guard is set,
`messageLoadStart` is emitted, and the result or error follows.  The
`finally` block runs on every path — including the silent-drop and
membership-error paths — scheduling a guard deletion `LOAD_DELAY` ms after
the handler finishes (at `fin` when the fetch ran, at `now` otherwise).
Returns the state, the timed emissions, and the scheduled guard
releases. -/
def handleFetchPrev (st : ChatState) (sock : Sock) (roomId : RoomId)
    (before : Option Nat) (fetchOk : Bool) (errMsg : String) (now fin : Nat) :
    ChatState × List (Nat × Emit) × List (String × Nat) :=
  let key := roomId ++ ":" ++ sock.user
  if ¬ roomHasParticipant st roomId sock.user then
    (st,
     [(now, Emit.toSocket sock.id
        (SEvent.errorEvent "LOAD_ERROR" "채팅방 접근 권한이 없습니다."))],
     [(key, now + LOAD_DELAY)])
  else if st.messageQueues.contains key then
    (st, [], [(key, now + LOAD_DELAY)])
  else
    let st1 : ChatState := { st with messageQueues := st.messageQueues ++ [key] }
    if fetchOk then
      let r := loadMessagesModel st.db roomId before BATCH_SIZE
      (st1,
       [(now, Emit.toSocket sock.id SEvent.messageLoadStart),
        (fin, Emit.toSocket sock.id
          (SEvent.previousMessagesLoaded r.messages r.hasMore r.oldestTimestamp))],
       [(key, fin + LOAD_DELAY)])
    else
      (st1,
       [(now, Emit.toSocket sock.id SEvent.messageLoadStart),
        (fin, Emit.toSocket sock.id (SEvent.errorEvent "LOAD_ERROR" errMsg))],
       [(key, fin + LOAD_DELAY)])

/-! ## joinRoom handler (part_004, lines 313-407) -/

/-- The `joinRoom` handler.  When `userRooms` already records the
requested room for this user, the handler logs, emits `joinRoomSuccess`
carrying only the room id, and returns (lines 319-327).  Otherwise it
leaves any current room (emitting `userLeft` to that room's other
members), upserts the user into the room's participants, records the new
room, persists a system join message, backfills the first page of history,
collects the room's active AI streams, and emits the full
`joinRoomSuccess`, the join message, and the participant update. -/
def handleJoinRoom (st : ChatState) (sock : Sock) (roomId : RoomId)
    (now : Nat) : ChatState × List Emit :=
  let cur := amGet st.userRooms sock.user
  if cur = some roomId then
    (st, [Emit.toSocket sock.id (SEvent.joinRoomSuccessRoomOnly roomId)])
  else
    let (st1, leaveEmits) :=
      match cur with
      | some c =>
        (({ st with userRooms := amDel st.userRooms sock.user } : ChatState),
         [Emit.toRoomExcept sock.id c (SEvent.userLeft sock.user)])
      | none => (st, ([] : List Emit))
    match st1.rooms.find? (fun r => decide (r.id = roomId)) with
    | none =>
      (st1, leaveEmits ++
        [Emit.toSocket sock.id (SEvent.joinRoomError "채팅방을 찾을 수 없습니다.")])
    | some _ =>
      let rooms' := st1.rooms.map (fun r =>
        if r.id = roomId then
          (if r.participants.contains sock.user then r
           else { r with participants := r.participants ++ [sock.user] })
        else r)
      let updated := (rooms'.find? (fun r => decide (r.id = roomId))).getD ⟨roomId, []⟩
      let st2 : ChatState :=
        { st1 with rooms := rooms'
                   userRooms := amSet st1.userRooms sock.user roomId }
      let joinMsg : StoredMsg :=
        { id := st2.nextId, room := roomId, sender := none
          mtype := MType.system
          content := sock.userName ++ "님이 입장하였습니다."
          ts := now }
      let st3 : ChatState :=
        { st2 with db := st2.db ++ [joinMsg], nextId := st2.nextId + 1 }
      let r := loadMessagesModel st3.db roomId none BATCH_SIZE
      let activeStreams := st3.streamingSessions.filter (fun s => decide (s.room = roomId))
      (st3,
       leaveEmits ++
         [Emit.toSocket sock.id
            (SEvent.joinRoomSuccessFull roomId updated.participants r.messages
              r.hasMore r.oldestTimestamp activeStreams),
          Emit.toRoom roomId (SEvent.roomMessage joinMsg),
          Emit.toRoom roomId (SEvent.participantsUpdate updated.participants)])

/-! ## chatMessage handler (part_004, lines 409-471) -/

/-- The `chatMessage` handler.  `hasRoomField` models the JS truthiness
test `if (!room)`; `sessionValid` is the external session authority's
verdict; `storeReachable` is whether the queue store accepts the push.
After the checks pass, the payload is built (text content trimmed) and
handed to `enqueue` — whose boolean result the source discards (`await
messageQueue.enqueue(queueMessage)` on line 456 ignores the resolved
value) — and `messageQueued` is emitted unconditionally on this path. -/
def handleChatMessage (st : ChatState) (qs : QueueState) (sock : Sock)
    (hasRoomField : Bool) (roomId : RoomId) (mtype : MType) (content : String)
    (tempId : String) (sessionValid : Bool) (storeReachable : Bool)
    (now : Nat) : QueueState × List Emit :=
  if ¬ hasRoomField then
    (qs, [Emit.toSocket sock.id
      (SEvent.errorEvent "MESSAGE_ERROR" "채팅방 정보가 없습니다.")])
  else if ¬ roomHasParticipant st roomId sock.user then
    (qs, [Emit.toSocket sock.id
      (SEvent.errorEvent "MESSAGE_ERROR" "채팅방 접근 권한이 없습니다.")])
  else if ¬ sessionValid then
    (qs, [Emit.toSocket sock.id
      (SEvent.errorEvent "MESSAGE_ERROR" "세션이 만료되었습니다. 다시 로그인해주세요.")])
  else
    let payload : MsgPayload :=
      { room := roomId, sender := sock.user, mtype := mtype
        content := if mtype = MType.text then content.trim else content
        tempId := tempId }
    let qs' := (enqueue storeReachable now qs
      { payload := payload, attemptCount := 0, queuedAt := 0 }).1
    (qs', [Emit.toSocket sock.id (SEvent.messageQueued tempId now)])

/-! ## messageProcessed fan-out (part_004, lines 473-495) -/

/-- The body of one registered `messageProcessed` listener: look up the
original sender's live connection and, when present, send it the
completion notice; then broadcast the record to the room. -/
def onMessageProcessedListener (st : ChatState) (record : StoredMsg)
    (original : QMsg) : List Emit :=
  let personal :=
    match amGet st.connectedUsers original.payload.sender with
    | some sid =>
      if sockAlive st sid then
        [Emit.toSocket sid
          (SEvent.messageProcessedNotice original.payload.tempId record)]
      else []
    | none => []
  personal ++ [Emit.toRoom record.room (SEvent.roomMessage record)]

/-- Delivery of one `messageProcessed` queue event: the event emitter runs
every registered listener, and the registration at line 474 sits inside
`io.on('connection', ...)`, so `processedListeners` copies of the listener
body run. -/
def dispatchMessageProcessed (st : ChatState) (record : StoredMsg)
    (original : QMsg) : List Emit :=
  (List.replicate st.processedListeners
    (onMessageProcessedListener st record original)).flatten

/-! ## AI response streaming (part_004, lines 756-880) -/

/-- A chunk as delivered to the `onChunk` callback: the source reads
`chunk.currentChunk || ''` when accumulating, so the field is optional,
and forwards `chunk.isCodeBlock`. -/
structure AIChunk where
  currentChunk : Option String
  isCodeBlock : Bool
deriving DecidableEq, Repr

/-- The streaming events broadcast to the room. -/
inductive AIEvent where
  | start (messageId : String) (aiType : String)
  | chunk (messageId : String) (currentChunk : Option String)
      (fullContent : String)
  | complete (messageId : String) (content : String)
  | error (messageId : String) (msg : String)
deriving DecidableEq, Repr

/-- Concatenation of a list of strings in order. -/
def concatAll : List String → String
  | [] => ""
  | s :: rest => s ++ concatAll rest

/-- The per-chunk behavior of `onChunk` (part_004, lines 792-809),
iterated over the chunk sequence: append `currentChunk || ''` to the
accumulator, mirror the accumulator into the streaming session, and
broadcast an `aiMessageChunk` carrying both the incremental chunk and the
accumulated text.  Returns the final sessions, the final accumulator, and
the chunk events in emission order. -/
def runChunks (mid : String) (sessions : List StreamSession) (acc : String) :
    List AIChunk → List StreamSession × String × List AIEvent
  | [] => (sessions, acc, [])
  | c :: cs =>
    let acc' := acc ++ c.currentChunk.getD ""
    let sessions' := sessions.map (fun s =>
      if s.messageId = mid then { s with content := acc' } else s)
    let rest := runChunks mid sessions' acc' cs
    (rest.1, rest.2.1, AIEvent.chunk mid c.currentChunk acc' :: rest.2.2)

/-- `handleAIResponse` (part_004, lines 756-880) for a generation that
completes: allocate the streaming session and broadcast `aiMessageStart`;
run the responder's chunk callbacks; then `onComplete` deletes the
session, persists the final record with `finalContent.content`, and
broadcasts a single `aiMessageComplete` with that content.

Modelled from the spec: `aiService.generateResponse` is not under `src/`.
Per the spec's Responder contract and Streaming Aggregator design, the
responder invokes `onChunk` once per generated chunk in emission order and
then `onComplete` exactly once, handing over the final text — the
accumulated content.  Returns the final sessions, the broadcast events in
order, and the persisted content. -/
def handleAIResponseModel (sessions : List StreamSession) (room : RoomId)
    (aiName : String) (chunks : List AIChunk) (now : Nat) :
    List StreamSession × List AIEvent × String :=
  let mid := aiName ++ "-" ++ toString now
  let sessions1 := sessions ++
    [({ messageId := mid, room := room, aiType := aiName, content := ""
        ts := now } : StreamSession)]
  let run := runChunks mid sessions1 "" chunks
  let finalContent := run.2.1
  let sessionsF := run.1.filter (fun s => decide (s.messageId ≠ mid))
  (sessionsF,
   AIEvent.start mid aiName :: run.2.2 ++ [AIEvent.complete mid finalContent],
   finalContent)

/-- The incremental chunk texts carried by the `aiMessageChunk` events of
a trace, with an absent `currentChunk` contributing the empty string the
accumulator added for it. -/
def chunkTexts (evs : List AIEvent) : List String :=
  evs.filterMap (fun e =>
    match e with
    | AIEvent.chunk _ c _ => some (c.getD "")
    | _ => none)

def isCompleteEvent (e : AIEvent) : Bool :=
  match e with
  | AIEvent.complete _ _ => true
  | _ => false

def isChunkEvent (e : AIEvent) : Bool :=
  match e with
  | AIEvent.chunk _ _ _ => true
  | _ => false

/-! ## Concrete instances used by the closed theorems and witnesses -/

def msgA : StoredMsg :=
  { id := 1, room := "r1", sender := some "u1", mtype := MType.text
    content := "a", ts := 10 }

def msgB : StoredMsg :=
  { id := 2, room := "r1", sender := some "u1", mtype := MType.text
    content := "b", ts := 20 }

def msgC : StoredMsg :=
  { id := 3, room := "r1", sender := some "u1", mtype := MType.text
    content := "c", ts := 30 }

/-- A three-message store for room `r1`, timestamps 10, 20, 30. -/
def db3 : List StoredMsg := [msgA, msgB, msgC]

def sockA : Sock := { id := "s1", user := "u1", userName := "Alice" }

def sockB : Sock := { id := "s2", user := "u2", userName := "Bob" }

/-- The socket that user `u1` already has connected in the duplicate-login
scenarios. -/
def sockOld : Sock := { id := "s0", user := "u1", userName := "Alice" }

/-- Server state after two distinct users connected: two copies of the
`messageProcessed` listener are registered. -/
def stC2 : ChatState :=
  (handleConnection (handleConnection emptyChat sockA 0 "d" "i").1 sockB 1 "d" "i").1

def recC2 : StoredMsg :=
  { id := 9, room := "r1", sender := some "u1", mtype := MType.text
    content := "hi", ts := 5 }

def origC2 : QMsg := { payload := samplePayload, attemptCount := 0, queuedAt := 0 }

/-- A state where room `r1` exists with participant `u1`, who is connected
on `sockA`. -/
def stC5 : ChatState :=
  { emptyChat with
    rooms := [{ id := "r1", participants := ["u1"] }]
    liveSockets := [sockA]
    connectedUsers := [("u1", "s1")] }

/-- Same, but with `u1` already recorded as joined to room `r1`. -/
def stC9 : ChatState :=
  { stC5 with userRooms := [("u1", "r1")] }

/-- A state where user `u1` is connected on `sockOld` and a second
connection `sockA` for the same user arrives. -/
def stC7 : ChatState :=
  { emptyChat with
    connectedUsers := [("u1", "s0")]
    liveSockets := [sockOld] }

/-- Whether an emission is the room broadcast of a processed record. -/
def isRoomBroadcast (e : Emit) : Bool :=
  match e with
  | Emit.toRoom _ (SEvent.roomMessage _) => true
  | _ => false

/-- Whether an emission is a personal completion notice. -/
def isPersonalNotice (e : Emit) : Bool :=
  match e with
  | Emit.toSocket _ (SEvent.messageProcessedNotice _ _) => true
  | _ => false

/-- The timed notices a given socket receives from a timed emission
trace. -/
def noticesTo (sid : SocketId) (es : List (Nat × Emit)) : List (Nat × SEvent) :=
  es.filterMap (fun te =>
    match te with
    | (t, Emit.toSocket s e) => if s = sid then some (t, e) else none
    | _ => none)

/-! ## Helper lemmas -/

theorem amGet_amSet_self {β : Type} (m : List (String × β)) (k : String) (v : β) :
    amGet (amSet m k v) k = some v := by
  induction m with
  | nil => simp [amGet, amSet]
  | cons p t ih =>
    by_cases h : p.1 = k
    · simp [amGet, amSet, h]
    · simp [amGet, amSet, List.find?, h]

theorem amGet_amDel_ne {β : Type} (m : List (String × β)) (k k' : String)
    (h : k ≠ k') : amGet (amDel m k') k = amGet m k := by
  have hne : ¬ (k' = k) := fun e => h e.symm
  induction m with
  | nil => rfl
  | cons p t ih =>
    by_cases hp : p.1 = k'
    · have hk : p.1 ≠ k := fun hkk => h (hkk ▸ hp)
      simp only [amGet, amDel, List.filter_cons, List.find?_cons] at ih ⊢
      simp [hp, hk, hne, h] at ih ⊢
      exact ih
    · by_cases hk : p.1 = k
      · simp only [amGet, amDel, List.filter_cons, List.find?_cons] at ih ⊢
        simp [hp, hk, hne, h]
      · simp only [amGet, amDel, List.filter_cons, List.find?_cons] at ih ⊢
        simp [hp, hk, hne, h] at ih ⊢
        exact ih

theorem amGet_amDel_self {β : Type} (m : List (String × β)) (k : String) :
    amGet (amDel m k) k = none := by
  induction m with
  | nil => rfl
  | cons p t ih =>
    by_cases hp : p.1 = k
    · simp only [amGet, amDel, List.filter_cons, List.find?_cons] at ih ⊢
      simp [hp] at ih ⊢
    · simp only [amGet, amDel, List.filter_cons, List.find?_cons] at ih ⊢
      simp [hp] at ih ⊢

/-! ## Claim theorems -/

set_option maxRecDepth 4000 in
/-- C1: the claim states that a failed entry is re-enqueued carrying its
incremented `attemptCount` and is dead-lettered once `attemptCount`
reaches `maxRetries` (3).  The code contradicts this: `enqueue` overwrites
`attemptCount` back to `0` on the re-enqueue, so after three consecutive
failing processing attempts on a single enqueued payload the entry is
still in the incoming lane with `attemptCount = 0`, and the dead-letter
lane is empty — and it remains empty after fifty failing attempts. -/
theorem c1_failed_entry_attempt_count_reset :
    runFailing 7 1 "boom" (enqueue true 0 ⟨[], [], []⟩ sampleEntry).1 3 =
      ({ main := [{ payload := samplePayload, attemptCount := 0, queuedAt := 1 }],
         processing := [], dead := [] } : QueueState) ∧
    (runFailing 7 1 "boom" (enqueue true 0 ⟨[], [], []⟩ sampleEntry).1 50).dead = [] ∧
    maxRetries = 3 := by
  refine ⟨by decide, by decide, rfl⟩

/-- C2: the claim states that one `processed` event yields exactly one
room broadcast and at most one personal completion notice.  Because the
`messageQueue.on('messageProcessed', ...)` registration sits inside
`io.on('connection', ...)`, after two accepted connections each processed
event runs two listener copies: the room receives the record twice and the
sender receives two completion notices. -/
theorem c2_processed_event_broadcast_per_connection :
    ((dispatchMessageProcessed stC2 recC2 origC2).filter isRoomBroadcast).length = 2 ∧
    ((dispatchMessageProcessed stC2 recC2 origC2).filter isPersonalNotice).length = 2 ∧
    (2 : Nat) ≠ 1 := by
  refine ⟨by decide, by decide, by decide⟩

/-- C5: `enqueue` reports an unreachable store by returning `false`
rather than throwing — but the `chatMessage` handler discards that result:
with the store unreachable, a valid submission leaves the queue unchanged
(the message is lost) while the sender still receives `messageQueued`,
not an error.  The claim that the failure is surfaced to the submitter is
therefore false on the code. -/
theorem c5_unreachable_store_still_acked :
    (enqueue false 5 (⟨[], [], []⟩ : QueueState) sampleEntry).2 = false ∧
    handleChatMessage stC5 ⟨[], [], []⟩ sockA true "r1" MType.text " hi " "t1"
        true false 5 =
      (⟨[], [], []⟩,
       [Emit.toSocket "s1" (SEvent.messageQueued "t1" 5)]) := by
  refine ⟨by decide, by decide⟩

/-- C8 counterexample: the claim states startup recovery runs before the
processing loop starts, so the loop would begin with the in-flight lane
empty and the parked entry back in the incoming lane.  In the code no
recovery precedes `startProcessing()` (cleanup is wired to SIGTERM/SIGINT
only): with one entry parked in the in-flight lane, the loop starts with
that lane still holding it and the incoming lane still empty. -/
theorem c8_no_recovery_before_loop :
    (queueStateAtLoopStart ⟨[], [sampleEntry], []⟩).processing = [sampleEntry] ∧
    (queueStateAtLoopStart ⟨[], [sampleEntry], []⟩).main = [] ∧
    ([sampleEntry] : List QMsg) ≠ [] := by
  refine ⟨rfl, rfl, by decide⟩

/-- C8 (amended): `cleanup()` itself moves every entry parked in the
in-flight lane back to the incoming lane (appended at the tail), leaves
the in-flight lane empty, and neither loses entries nor duplicates any
into dead-letter — but it runs on shutdown signals, not before the
processing loop starts. -/
theorem c8_cleanup_moves_parked (s : QueueState) :
    (cleanup s).processing = [] ∧
    (cleanup s).main = s.main ++ s.processing ∧
    (cleanup s).dead = s.dead ∧
    onShutdownSignal s = cleanup s := by
  unfold cleanup onShutdownSignal
  by_cases h : 0 < s.processing.length
  · simp [cleanup, h]
  · have hnil : s.processing = [] := by
      cases hp : s.processing with
      | nil => rfl
      | cons a t => rw [hp] at h; simp at h
    simp [cleanup, h, hnil]

/-- C9: `joinRoom` is idempotent at the public interface: when the user's
`UserRoom` entry already records the requested room, the handler emits
`joinRoomSuccess` carrying only the room id and changes nothing —
no join message, no broadcasts, and the state (maps, rooms, store) is
returned untouched. -/
theorem c9_join_room_idempotent (st : ChatState) (sock : Sock)
    (roomId : RoomId) (now : Nat)
    (h : amGet st.userRooms sock.user = some roomId) :
    handleJoinRoom st sock roomId now =
      (st, [Emit.toSocket sock.id (SEvent.joinRoomSuccessRoomOnly roomId)]) := by
  unfold handleJoinRoom
  simp [h]

/-- C9 witness: with `u1` already joined to `r1`, a repeated `joinRoom`
for `r1` only re-acknowledges. -/
theorem c9_join_room_idempotent_witness :
    handleJoinRoom stC9 sockA "r1" 3 =
      (stC9, [Emit.toSocket "s1" (SEvent.joinRoomSuccessRoomOnly "r1")]) :=
  c9_join_room_idempotent stC9 sockA "r1" 3 (by decide)

/-- C4 counterexample: the claim says the returned page is the oldest
`limit` of the fetched records.  On a room with three messages
(timestamps 10, 20, 30) and `limit = 1`, the code fetches the newest two
(30, 20) and returns the newest of them (30), while the oldest one of the
fetched would be 20 — and this is the `hasMore = true` situation. -/
theorem c4_returned_not_oldest_of_fetched :
    (loadMessagesModel db3 "r1" none 1).messages = [msgC] ∧
    claimOldestOfFetched db3 "r1" none 1 = [msgB] ∧
    (loadMessagesModel db3 "r1" none 1).messages ≠
      claimOldestOfFetched db3 "r1" none 1 ∧
    (loadMessagesModel db3 "r1" none 1).hasMore = true := by
  refine ⟨by decide, by decide, by decide, by decide⟩

/-- Auxiliary: the per-chunk fold of the streaming aggregator appends
every chunk's text to the accumulator, emits one `aiMessageChunk` per
chunk in order, and emits no completion event. -/
theorem runChunks_spec (mid : String) (chunks : List AIChunk) :
    ∀ (sessions : List StreamSession) (acc : String),
      (runChunks mid sessions acc chunks).2.1 =
          acc ++ concatAll (chunks.map (fun c => c.currentChunk.getD "")) ∧
      chunkTexts (runChunks mid sessions acc chunks).2.2 =
          chunks.map (fun c => c.currentChunk.getD "") ∧
      (runChunks mid sessions acc chunks).2.2.filter isCompleteEvent = [] ∧
      ((runChunks mid sessions acc chunks).2.2.filter isChunkEvent).length =
          chunks.length := by
  induction chunks with
  | nil =>
    intro sessions acc
    simp [runChunks, concatAll, chunkTexts]
  | cons c cs ih =>
    intro sessions acc
    obtain ⟨h1, h2, h3, h4⟩ :=
      ih (sessions.map (fun s =>
            if s.messageId = mid then { s with content := acc ++ c.currentChunk.getD "" } else s))
        (acc ++ c.currentChunk.getD "")
    refine ⟨?_, ?_, ?_, ?_⟩
    · simp only [runChunks, List.map_cons, concatAll]
      rw [h1, String.append_assoc]
    · simp only [runChunks, chunkTexts, List.filterMap_cons, List.map_cons]
      rw [← chunkTexts, h2]
    · simp only [runChunks, List.filter_cons, isCompleteEvent]
      simpa using h3
    · simp only [runChunks, List.filter_cons, isChunkEvent, List.map_cons]
      simpa using h4

/-- C6: for a streaming generation, the concatenation of the chunk texts
broadcast in `aiMessageChunk` events, in emission order, equals the final
accumulated content; that content is what is persisted and carried by the
single `aiMessageComplete` event, which is emitted exactly once, after all
chunk events, as the last event of the generation.  (The external
responder is modelled from the spec: `onChunk` once per chunk in order,
then `onComplete` once with the accumulated text.) -/
theorem c6_stream_concat_persisted (sessions : List StreamSession)
    (room : RoomId) (aiName : String) (chunks : List AIChunk) (now : Nat) :
    (handleAIResponseModel sessions room aiName chunks now).2.2 =
        concatAll (chunks.map (fun c => c.currentChunk.getD "")) ∧
    concatAll (chunkTexts (handleAIResponseModel sessions room aiName chunks now).2.1) =
        (handleAIResponseModel sessions room aiName chunks now).2.2 ∧
    ((handleAIResponseModel sessions room aiName chunks now).2.1.filter
        isCompleteEvent).length = 1 ∧
    ((handleAIResponseModel sessions room aiName chunks now).2.1.filter
        isChunkEvent).length = chunks.length ∧
    (handleAIResponseModel sessions room aiName chunks now).2.1.getLast? =
      some (AIEvent.complete (aiName ++ "-" ++ toString now)
        (handleAIResponseModel sessions room aiName chunks now).2.2) := by
  obtain ⟨h1, h2, h3, h4⟩ := runChunks_spec (aiName ++ "-" ++ toString now) chunks
    (sessions ++ [({ messageId := aiName ++ "-" ++ toString now, room := room,
                     aiType := aiName, content := "", ts := now } : StreamSession)]) ""
  rw [String.empty_append] at h1
  refine ⟨?_, ?_, ?_, ?_, ?_⟩
  · simpa [handleAIResponseModel] using h1
  · simp only [handleAIResponseModel, chunkTexts, List.filterMap_cons,
      List.filterMap_append]
    rw [← chunkTexts, h2]
    simp [h1]
  · simp only [handleAIResponseModel, List.filter_cons, List.filter_append,
      isCompleteEvent]
    simp [h3, isCompleteEvent]
  · simp only [handleAIResponseModel, List.filter_cons, List.filter_append,
      isChunkEvent]
    simp [h4, isChunkEvent]
  · simp only [handleAIResponseModel]
    rw [List.getLast?_concat]
/-! ## Lemmas about the disconnect handler and the connection handler -/

theorem dlb_connectedUsers (st3 : ChatState) (sock : Sock) (reason : String)
    (now : Nat) (roomOpt : Option RoomId) :
    (disconnectLeaveBroadcast st3 sock reason now roomOpt).1.connectedUsers =
      st3.connectedUsers := by
  unfold disconnectLeaveBroadcast
  split
  · rfl
  · split
    · dsimp only
      split <;> rfl
    · rfl

theorem dlb_liveSockets (st3 : ChatState) (sock : Sock) (reason : String)
    (now : Nat) (roomOpt : Option RoomId) :
    (disconnectLeaveBroadcast st3 sock reason now roomOpt).1.liveSockets =
      st3.liveSockets := by
  unfold disconnectLeaveBroadcast
  split
  · rfl
  · split
    · dsimp only
      split <;> rfl
    · rfl

theorem dlb_noticesTo (st3 : ChatState) (sock : Sock) (reason : String)
    (now : Nat) (roomOpt : Option RoomId) (x : SocketId) :
    noticesTo x (disconnectLeaveBroadcast st3 sock reason now roomOpt).2 = [] := by
  unfold disconnectLeaveBroadcast
  split
  · rfl
  · split
    · dsimp only
      split
      · simp [noticesTo]
      · rfl
    · rfl

theorem disconnectSock_connectedUsers_eq (st : ChatState) (sid : SocketId)
    (reason : String) (now : Nat) (oldSock : Sock)
    (hf : findSock st sid = some oldSock) :
    (disconnectSock st sid reason now).1.connectedUsers =
      (if amGet st.connectedUsers oldSock.user = some sid
       then amDel st.connectedUsers oldSock.user
       else st.connectedUsers) := by
  unfold disconnectSock
  rw [hf]
  dsimp only
  rw [dlb_connectedUsers]
  by_cases hc : amGet st.connectedUsers oldSock.user = some sid <;> simp [hc]

theorem disconnectSock_liveSockets_eq (st : ChatState) (sid : SocketId)
    (reason : String) (now : Nat) (oldSock : Sock)
    (hf : findSock st sid = some oldSock) :
    (disconnectSock st sid reason now).1.liveSockets =
      st.liveSockets.filter (fun s => decide (s.id ≠ sid)) := by
  unfold disconnectSock
  rw [hf]
  dsimp only
  rw [dlb_liveSockets]
  by_cases hc : amGet st.connectedUsers oldSock.user = some sid <;> simp [hc]

theorem disconnectSock_none (st : ChatState) (sid : SocketId)
    (reason : String) (now : Nat) (hf : findSock st sid = none) :
    disconnectSock st sid reason now = (st, []) := by
  unfold disconnectSock
  rw [hf]

theorem disconnectSock_noticesTo (st : ChatState) (sid : SocketId)
    (reason : String) (now : Nat) (x : SocketId) :
    noticesTo x (disconnectSock st sid reason now).2 = [] := by
  unfold disconnectSock
  split
  · rfl
  · dsimp only
    rw [dlb_noticesTo]
theorem dupTarget_ne (st : ChatState) (sock : Sock) (sid : SocketId)
    (h : dupTarget st sock = some sid) : sid ≠ sock.id := by
  unfold dupTarget at h
  cases hp : amGet st.connectedUsers sock.user with
  | none => rw [hp] at h; cases h
  | some p =>
    rw [hp] at h
    dsimp only at h
    split at h
    · rename_i hcond
      cases h
      exact hcond.1
    · cases h

theorem disconnectSock_amGet_preserved (st : ChatState) (sid : SocketId)
    (reason : String) (now : Nat) (u : UserId)
    (h : amGet st.connectedUsers u ≠ some sid) :
    amGet (disconnectSock st sid reason now).1.connectedUsers u =
      amGet st.connectedUsers u := by
  cases hf : findSock st sid with
  | none => rw [disconnectSock_none st sid reason now hf]
  | some o =>
    rw [disconnectSock_connectedUsers_eq st sid reason now o hf]
    by_cases hu : o.user = u
    · rw [if_neg (fun hc => h (hu ▸ hc))]
    · by_cases hc : amGet st.connectedUsers o.user = some sid
      · rw [if_pos hc]
        exact amGet_amDel_ne st.connectedUsers u o.user (fun e => hu e.symm)
      · rw [if_neg hc]

/-- C3: on a new authenticated connection, `ConnectedUser` is updated to
the new socket's id immediately in the connection handler — before any
grace-window timer fires — and firing the scheduled duplicate-login
timeout (the old connection's `session_ended` and forced disconnect)
leaves the entry pointing at the new socket. -/
theorem c3_connected_user_updated_immediately (st : ChatState) (sock : Sock)
    (now : Nat) (dev ip : String) :
    amGet (handleConnection st sock now dev ip).1.connectedUsers sock.user =
      some sock.id ∧
    ∀ tm ∈ (handleConnection st sock now dev ip).2.2,
      amGet (fireDupTimer (handleConnection st sock now dev ip).1 tm).1.connectedUsers
        sock.user = some sock.id := by
  unfold handleConnection
  dsimp only
  refine ⟨amGet_amSet_self _ _ _, ?_⟩
  intro tm htm
  revert htm
  cases hd : dupTarget (addLiveSock st sock) sock with
  | none => intro htm; cases htm
  | some prevSid =>
    intro htm
    have htm' : tm = (⟨prevSid, now + DUPLICATE_LOGIN_TIMEOUT⟩ : DupTimer) := by
      simpa using htm
    subst htm'
    unfold fireDupTimer
    dsimp only
    rw [disconnectSock_amGet_preserved]
    · exact amGet_amSet_self _ _ _
    · rw [amGet_amSet_self]
      intro hcon
      exact (dupTarget_ne _ _ _ hd) (Option.some.inj hcon).symm

/-- C3 witness: user `u1`, already connected on `s0`, connects on `s1`:
the map points to `s1` at acceptance, and still does after the
grace-window timer fires. -/
theorem c3_connected_user_updated_immediately_witness :
    amGet (handleConnection stC7 sockA 0 "d" "i").1.connectedUsers "u1" =
      some "s1" ∧
    amGet (fireDupTimer (handleConnection stC7 sockA 0 "d" "i").1
        (⟨"s0", 10000⟩ : DupTimer)).1.connectedUsers "u1" = some "s1" := by
  have h := c3_connected_user_updated_immediately stC7 sockA 0 "d" "i"
  exact ⟨h.1, h.2 (⟨"s0", 10000⟩ : DupTimer) (by decide)⟩

theorem noticesTo_append (sid : SocketId) (l1 l2 : List (Nat × Emit)) :
    noticesTo sid (l1 ++ l2) = noticesTo sid l1 ++ noticesTo sid l2 := by
  unfold noticesTo
  exact List.filterMap_append l1 l2 _
theorem sockAlive_of_findSock (st : ChatState) (sid : SocketId) (o : Sock)
    (hf : findSock st sid = some o) : sockAlive st sid = true := by
  unfold findSock at hf
  unfold sockAlive
  rw [List.any_eq_true]
  have h2 := List.find?_some hf
  exact ⟨o, List.mem_of_find?_eq_some hf, h2⟩

theorem addLiveSock_connectedUsers (st : ChatState) (sock : Sock) :
    (addLiveSock st sock).connectedUsers = st.connectedUsers := by
  unfold addLiveSock
  split <;> rfl

theorem addLiveSock_liveSockets_of_not_alive (st : ChatState) (sock : Sock)
    (h : sockAlive st sock.id = false) :
    (addLiveSock st sock).liveSockets = st.liveSockets ++ [sock] := by
  unfold addLiveSock
  rw [h]
  rfl

theorem any_id_filter_ne (l : List Sock) (sid : SocketId) :
    (l.filter (fun s => decide (s.id ≠ sid))).any
      (fun s => decide (s.id = sid)) = false := by
  induction l with
  | nil => rfl
  | cons a t ih =>
    by_cases ha : a.id = sid <;> simp [List.filter_cons, ha, ih]

theorem any_id_filter_false (l : List Sock) (p : Sock → Bool) (sid : SocketId)
    (h : l.any (fun s => decide (s.id = sid)) = false) :
    (l.filter p).any (fun s => decide (s.id = sid)) = false := by
  cases hq : (l.filter p).any (fun s => decide (s.id = sid)) with
  | false => rfl
  | true =>
    exfalso
    rw [List.any_eq_true] at hq
    obtain ⟨s, hs, hpred⟩ := hq
    have hmem : s ∈ l := (List.mem_filter.mp hs).1
    have : l.any (fun x => decide (x.id = sid)) = true :=
      List.any_eq_true.mpr ⟨s, hmem, hpred⟩
    rw [h] at this
    cases this

/-- C7: when a second authenticated connection for identity `u` arrives
while `ConnectedUser[u]` references a different live socket `oldSid`, the
superseded socket receives exactly the notice sequence `duplicate_login`
(at arrival time, with the new connection's device/network metadata and a
timestamp) followed by `session_ended` delivered exactly
`DUPLICATE_LOGIN_TIMEOUT` (10s) later, it is force-disconnected, and
afterwards the new socket is the only live connection for `u`. -/
theorem c7_duplicate_login_notice_sequence (st : ChatState) (u : UserId)
    (oldSid nsid : SocketId)
    (onm nnm : String) (t0 : Nat) (dev ip : String)
    (hcu : amGet st.connectedUsers u = some oldSid)
    (hf : findSock st oldSid = some ⟨oldSid, u, onm⟩)
    (hneq : oldSid ≠ nsid)
    (hnsid : sockAlive st nsid = false)
    (huniq : ∀ s ∈ st.liveSockets, s.user = u → s.id = oldSid) :
    noticesTo oldSid (processNewConnection st ⟨nsid, u, nnm⟩ t0 dev ip true).2.1 =
      [(t0, SEvent.duplicateLogin dev ip t0),
       (t0 + DUPLICATE_LOGIN_TIMEOUT, SEvent.sessionEnded "duplicate_login")] ∧
    sockAlive (processNewConnection st ⟨nsid, u, nnm⟩ t0 dev ip true).1 oldSid = false ∧
    sockAlive (processNewConnection st ⟨nsid, u, nnm⟩ t0 dev ip true).1 nsid = true ∧
    (∀ s ∈ (processNewConnection st ⟨nsid, u, nnm⟩ t0 dev ip true).1.liveSockets,
      s.user = u → s.id = nsid) := by
  have halive : sockAlive st oldSid = true := sockAlive_of_findSock st oldSid _ hf
  have hA : authMiddlewareDupCheck st (⟨nsid, u, nnm⟩ : Sock) t0 dev ip =
      ((disconnectSock st oldSid "server namespace disconnect"
          (t0 + DUPLICATE_LOGIN_TIMEOUT)).1,
       [(t0, Emit.toSocket oldSid (SEvent.duplicateLogin dev ip t0)),
        (t0 + DUPLICATE_LOGIN_TIMEOUT,
          Emit.toSocket oldSid (SEvent.sessionEnded "duplicate_login"))] ++
         (disconnectSock st oldSid "server namespace disconnect"
            (t0 + DUPLICATE_LOGIN_TIMEOUT)).2,
       t0 + DUPLICATE_LOGIN_TIMEOUT) := by
    unfold authMiddlewareDupCheck
    dsimp only
    rw [hcu]
    dsimp only
    rw [halive]
    simp
  have hDel : (disconnectSock st oldSid "server namespace disconnect"
      (t0 + DUPLICATE_LOGIN_TIMEOUT)).1.connectedUsers = amDel st.connectedUsers u := by
    rw [disconnectSock_connectedUsers_eq st oldSid _ _ _ hf]
    exact if_pos hcu
  have hLiveD : (disconnectSock st oldSid "server namespace disconnect"
      (t0 + DUPLICATE_LOGIN_TIMEOUT)).1.liveSockets =
      st.liveSockets.filter (fun s => decide (s.id ≠ oldSid)) :=
    disconnectSock_liveSockets_eq st oldSid _ _ _ hf
  have hnsidD : sockAlive (disconnectSock st oldSid "server namespace disconnect"
      (t0 + DUPLICATE_LOGIN_TIMEOUT)).1 nsid = false := by
    unfold sockAlive
    rw [hLiveD]
    exact any_id_filter_false _ _ _ hnsid
  have hALS : (addLiveSock (disconnectSock st oldSid "server namespace disconnect"
      (t0 + DUPLICATE_LOGIN_TIMEOUT)).1 (⟨nsid, u, nnm⟩ : Sock)).liveSockets =
      st.liveSockets.filter (fun s => decide (s.id ≠ oldSid)) ++ [⟨nsid, u, nnm⟩] := by
    rw [addLiveSock_liveSockets_of_not_alive _ _ hnsidD, hLiveD]
  have hganone : amGet (addLiveSock (disconnectSock st oldSid "server namespace disconnect"
      (t0 + DUPLICATE_LOGIN_TIMEOUT)).1 (⟨nsid, u, nnm⟩ : Sock)).connectedUsers u = none := by
    rw [addLiveSock_connectedUsers, hDel]
    exact amGet_amDel_self _ _
  have hdup : dupTarget (addLiveSock (disconnectSock st oldSid "server namespace disconnect"
      (t0 + DUPLICATE_LOGIN_TIMEOUT)).1 (⟨nsid, u, nnm⟩ : Sock)) (⟨nsid, u, nnm⟩ : Sock)
      = none := by
    unfold dupTarget
    dsimp only
    rw [hganone]
  unfold processNewConnection
  rw [hA]
  dsimp only
  rw [if_pos rfl]
  unfold handleConnection
  dsimp only
  rw [hdup]
  dsimp only
  refine ⟨?_, ?_, ?_, ?_⟩
  · rw [List.append_nil, noticesTo_append, disconnectSock_noticesTo]
    simp [noticesTo]
  · unfold sockAlive
    dsimp only
    rw [hALS]
    have hne2 : decide (nsid = oldSid) = false := by
      simp
      exact fun e => hneq e.symm
    simp [List.any_append, any_id_filter_ne, hne2]
  · unfold sockAlive
    dsimp only
    rw [hALS]
    simp [List.any_append]
  · intro sck hmem hu2
    rw [hALS] at hmem
    rcases List.mem_append.mp hmem with hmem1 | hmem2
    · exfalso
      obtain ⟨hin, hfilt⟩ := List.mem_filter.mp hmem1
      have := huniq sck hin hu2
      simp at hfilt
      exact hfilt this
    · have : sck = (⟨nsid, u, nnm⟩ : Sock) := by simpa using hmem2
      rw [this]

/-- C7 witness: `u1` connected on `s0`; a second connection `s1` arrives
at time 0: `s0` receives `duplicate_login` at 0 and `session_ended` at
10000, is disconnected, and `s1` is the only live connection for `u1`. -/
theorem c7_duplicate_login_notice_sequence_witness :
    noticesTo "s0"
        (processNewConnection stC7 (⟨"s1", "u1", "Alice"⟩ : Sock) 0 "d" "i" true).2.1 =
      [(0, SEvent.duplicateLogin "d" "i" 0),
       (10000, SEvent.sessionEnded "duplicate_login")] ∧
    sockAlive (processNewConnection stC7 (⟨"s1", "u1", "Alice"⟩ : Sock) 0 "d" "i" true).1
        "s0" = false ∧
    sockAlive (processNewConnection stC7 (⟨"s1", "u1", "Alice"⟩ : Sock) 0 "d" "i" true).1
        "s1" = true := by
  have h := c7_duplicate_login_notice_sequence stC7 "u1" "s0" "s1" "Alice" "Alice"
    0 "d" "i" (by decide) (by decide) (by decide) (by decide) (by decide)
  exact ⟨h.1, h.2.1, h.2.2.1⟩

/-- C4 (amended): `fetchPage` fetches up to `limit + 1` records older
than `before` (or the newest when `before` is absent), sets `hasMore`
exactly when more than `limit` records match the query, and returns the
NEWEST `limit` of the fetched records — dropping the extra oldest probe
record — in ascending time order, together with the timestamp of the
oldest returned record: every matching record that is not returned is no
newer than any returned one. -/
theorem c4_fetch_page_amended (db : List StoredMsg) (roomId : RoomId)
    (before : Option Nat) (limit : Nat) :
    ((loadMessagesModel db roomId before limit).hasMore = true ↔
        limit < (queryMsgs db roomId before).length) ∧
    List.Sorted tsAsc (loadMessagesModel db roomId before limit).messages ∧
    (loadMessagesModel db roomId before limit).messages.length =
        min limit (queryMsgs db roomId before).length ∧
    (loadMessagesModel db roomId before limit).oldestTimestamp =
        ((loadMessagesModel db roomId before limit).messages.head?).map (fun m => m.ts) ∧
    (∀ a ∈ (loadMessagesModel db roomId before limit).messages,
        a ∈ queryMsgs db roomId before) ∧
    (∀ a ∈ (loadMessagesModel db roomId before limit).messages,
      ∀ b ∈ queryMsgs db roomId before,
        b ∉ (loadMessagesModel db roomId before limit).messages → b.ts ≤ a.ts) := by
  have hperm := List.perm_insertionSort tsDesc (queryMsgs db roomId before)
  have hsorted := List.sorted_insertionSort tsDesc (queryMsgs db roomId before)
  have hlen : (List.insertionSort tsDesc (queryMsgs db roomId before)).length =
      (queryMsgs db roomId before).length := hperm.length_eq
  have hmsg : (loadMessagesModel db roomId before limit).messages =
      List.insertionSort tsAsc
        ((List.insertionSort tsDesc (queryMsgs db roomId before)).take limit) := by
    unfold loadMessagesModel
    dsimp only
    rw [List.take_take, Nat.min_eq_left (Nat.le_succ limit)]
  refine ⟨?_, ?_, ?_, ?_, ?_, ?_⟩
  · unfold loadMessagesModel
    dsimp only
    rw [decide_eq_true_iff, List.length_take, hlen]
    omega
  · rw [hmsg]
    exact List.sorted_insertionSort tsAsc _
  · rw [hmsg, List.length_insertionSort, List.length_take, hlen]
  · rfl
  · intro a ha
    rw [hmsg, List.mem_insertionSort] at ha
    exact hperm.mem_iff.mp (List.mem_of_mem_take ha)
  · intro a ha b hb hbn
    rw [hmsg, List.mem_insertionSort] at ha hbn
    have hbl : b ∈ List.insertionSort tsDesc (queryMsgs db roomId before) :=
      hperm.mem_iff.mpr hb
    rw [← List.take_append_drop limit
      (List.insertionSort tsDesc (queryMsgs db roomId before))] at hbl
    rcases List.mem_append.mp hbl with hb1 | hb2
    · exact absurd hb1 hbn
    · have hpw := hsorted
      rw [List.Sorted, ← List.take_append_drop limit
        (List.insertionSort tsDesc (queryMsgs db roomId before))] at hpw
      exact (List.pairwise_append.mp hpw).2.2 a ha b hb2
/-- C10: the per-(room, identity) in-flight guard of
`fetchPreviousMessages` is not released when the fetch completes (at
`fin1`) but by a timer scheduled `LOAD_DELAY` (300 ms) later; a second
request for the same key arriving at any `t2` before `fin1 + LOAD_DELAY`
— after a first request of either outcome (`ok1` covers success and
error) — emits nothing at all (no response, no error, not even
`messageLoadStart`), while the guard is gone once `fin1 + LOAD_DELAY`
is reached. -/
theorem c10_fetch_guard_released_after_delay (st : ChatState) (sock : Sock)
    (roomId : RoomId) (before1 before2 : Option Nat) (ok1 ok2 : Bool)
    (err1 err2 : String) (t0 fin1 t2 fin2 : Nat)
    (hm : roomHasParticipant st roomId sock.user = true)
    (hg : (roomId ++ ":" ++ sock.user) ∉ st.messageQueues)
    (ht2 : t2 < fin1 + LOAD_DELAY) :
    (handleFetchPrev st sock roomId before1 ok1 err1 t0 fin1).2.2 =
      [(roomId ++ ":" ++ sock.user, fin1 + LOAD_DELAY)] ∧
    (handleFetchPrev
        (fireDueReleases (handleFetchPrev st sock roomId before1 ok1 err1 t0 fin1).1
          (handleFetchPrev st sock roomId before1 ok1 err1 t0 fin1).2.2 t2).1
        sock roomId before2 ok2 err2 t2 fin2).2.1 = [] ∧
    (roomId ++ ":" ++ sock.user) ∈
      (fireDueReleases (handleFetchPrev st sock roomId before1 ok1 err1 t0 fin1).1
        (handleFetchPrev st sock roomId before1 ok1 err1 t0 fin1).2.2 t2).1.messageQueues ∧
    (roomId ++ ":" ++ sock.user) ∉
      (fireDueReleases (handleFetchPrev st sock roomId before1 ok1 err1 t0 fin1).1
        (handleFetchPrev st sock roomId before1 ok1 err1 t0 fin1).2.2
        (fin1 + LOAD_DELAY)).1.messageQueues := by
  have h1 : handleFetchPrev st sock roomId before1 ok1 err1 t0 fin1 =
      (({ st with messageQueues := st.messageQueues ++ [roomId ++ ":" ++ sock.user] } : ChatState),
       (handleFetchPrev st sock roomId before1 ok1 err1 t0 fin1).2.1,
       [(roomId ++ ":" ++ sock.user, fin1 + LOAD_DELAY)]) := by
    cases ok1 <;> simp [handleFetchPrev, hm, hg]
  have hnotdue : ¬ (fin1 + LOAD_DELAY ≤ t2) := Nat.not_le.mpr ht2
  have h2 : (fireDueReleases (handleFetchPrev st sock roomId before1 ok1 err1 t0 fin1).1
      (handleFetchPrev st sock roomId before1 ok1 err1 t0 fin1).2.2 t2).1 =
      ({ st with messageQueues := st.messageQueues ++ [roomId ++ ":" ++ sock.user] } : ChatState) := by
    rw [h1]
    simp [fireDueReleases, hnotdue]
  refine ⟨?_, ?_, ?_, ?_⟩
  · rw [h1]
  · rw [h2]
    have hm2 : roomHasParticipant
        ({ st with messageQueues := st.messageQueues ++ [roomId ++ ":" ++ sock.user] } : ChatState)
        roomId sock.user = true := hm
    simp [handleFetchPrev, hm2]
  · rw [h2]
    simp
  · rw [h1]
    simp [fireDueReleases, fireGuardRelease, List.mem_filter]

/-- C4 witness: three messages in `r1` with timestamps 10, 20, 30 and
`limit = 1`: `hasMore` is true, and the matching-but-not-returned record
with timestamp 20 is older than the returned one with timestamp 30. -/
theorem c4_fetch_page_amended_witness :
    (loadMessagesModel db3 "r1" none 1).hasMore = true ∧ msgB.ts ≤ msgC.ts := by
  have h := c4_fetch_page_amended db3 "r1" none 1
  exact ⟨h.1.mpr (by decide),
    h.2.2.2.2.2 msgC (by decide) msgB (by decide) (by decide)⟩

/-- C10 witness: first fetch at 0 answered at 100; a second request at
350 (within 300 ms of the response) emits nothing and the guard is still
held; at 400 the guard is released. -/
theorem c10_fetch_guard_released_after_delay_witness :
    (handleFetchPrev
        (fireDueReleases (handleFetchPrev stC5 sockA "r1" none true "" 0 100).1
          (handleFetchPrev stC5 sockA "r1" none true "" 0 100).2.2 350).1
        sockA "r1" none true "" 350 450).2.1 = [] ∧
    ("r1" ++ ":" ++ sockA.user) ∈
      (fireDueReleases (handleFetchPrev stC5 sockA "r1" none true "" 0 100).1
        (handleFetchPrev stC5 sockA "r1" none true "" 0 100).2.2 350).1.messageQueues ∧
    ("r1" ++ ":" ++ sockA.user) ∉
      (fireDueReleases (handleFetchPrev stC5 sockA "r1" none true "" 0 100).1
        (handleFetchPrev stC5 sockA "r1" none true "" 0 100).2.2 400).1.messageQueues := by
  have h := c10_fetch_guard_released_after_delay stC5 sockA "r1" none none true true
    "" "" 0 100 350 450 (by decide) (by decide) (by decide)
  exact ⟨h.2.1, h.2.2.1, h.2.2.2⟩

end BootcampChat
